import Mathlib

/-! Shallow embedding of the quote-record lifecycle and reference-allocation
core of the guerilla-teaching website repository: the serverless worker's
quote endpoints (src/worker/email.js) and the managed-cloud repository
variants (src/backend/src/config/azure-database.ts), together with the
quotes table schema (PRIMARY KEY on id, UNIQUE on reference_number). -/

namespace GuerillaQuotes

/-! ### Decimal rendering of JS numbers

On a non-negative integer, JS `n.toString()` renders the decimal digits with
no leading zeros ("0" for zero). `decCharsAux` performs that digit
extraction; its first argument only bounds the recursion depth (the second
argument strictly decreases under division by 10) and is fixed to the number
itself in `decChars`. -/

def decCharsAux : Nat → Nat → List Char
  | 0, _ => []
  | fuel + 1, n =>
    if n = 0 then [] else decCharsAux fuel (n / 10) ++ [Nat.digitChar (n % 10)]

def decChars (n : Nat) : List Char :=
  if n = 0 then ['0'] else decCharsAux n n

/-- Embeds `n.toString()` for a non-negative JS number, e.g. 2025 to "2025". -/
def natToString (n : Nat) : String :=
  ⟨decChars n⟩

/-- List-level body of `s.padStart(4, '0')`: left-pad with '0' up to length 4;
a longer list is returned unchanged, never truncated. -/
def pad4 (l : List Char) : List Char :=
  List.replicate (4 - l.length) '0' ++ l

/-- Embeds `s.padStart(4, '0')` from the reference-number template. -/
def padStart4 (s : String) : String :=
  ⟨pad4 s.data⟩

/-- Candidate reference string built in the loop body of
`generateReferenceNumber` (src/worker/email.js line 241):
the template literal GT-, the current year, -, the zero-padded counter. -/
def formatRef (year seq : Nat) : String :=
  "GT-" ++ natToString year ++ "-" ++ padStart4 (natToString seq)

/-- Embeds the do-while loop of `generateReferenceNumber`: build the candidate
for `counter`, and while the candidate is in `existingRefs` retry with
`counter + 1`. The JS loop carries no fuel; `generateReferenceNumber` below
passes enough fuel that the base case is never reached (see
`genRefLoop_spec` and `exists_free_index`). -/
def genRefLoop (year : Nat) (refs : List String) : Nat → Nat → String
  | 0, counter => formatRef year counter
  | fuel + 1, counter =>
    if refs.contains (formatRef year counter) then
      genRefLoop year refs fuel (counter + 1)
    else
      formatRef year counter

/-- Embeds `generateReferenceNumber(existingRefs)` of src/worker/email.js
lines 234-246, with the ambient current calendar year as a parameter. -/
def generateReferenceNumber (year : Nat) (existingRefs : List String) : String :=
  genRefLoop year existingRefs (existingRefs.length + 1) 1

/-! ### Properties of the decimal rendering -/

theorem data_mk (l : List Char) : (String.mk l).data = l := rfl

theorem decCharsAux_eq (fuel : Nat) :
    ∀ n, n ≤ fuel → decCharsAux fuel n = ((Nat.digits 10 n).map Nat.digitChar).reverse := by
  induction fuel with
  | zero =>
    intro n hn
    have : n = 0 := Nat.le_zero.mp hn
    subst this
    simp [decCharsAux]
  | succ fuel ih =>
    intro n hn
    by_cases h0 : n = 0
    · subst h0; simp [decCharsAux]
    · have hdiv : n / 10 ≤ fuel := by
        have := Nat.div_lt_self (Nat.pos_of_ne_zero h0) (by norm_num : 1 < 10)
        omega
      rw [Nat.digits_def' (by norm_num : 1 < 10) (Nat.pos_of_ne_zero h0)]
      simp [decCharsAux, h0, ih _ hdiv]

theorem decChars_eq (n : Nat) (hn : n ≠ 0) :
    decChars n = ((Nat.digits 10 n).map Nat.digitChar).reverse := by
  simp [decChars, hn, decCharsAux_eq n n le_rfl]

theorem decChars_length (n : Nat) (hn : n ≠ 0) :
    (decChars n).length = Nat.log 10 n + 1 := by
  rw [decChars_eq n hn]
  simp [Nat.digits_len 10 n (by norm_num) hn]

theorem digitChar_inj_lt :
    ∀ a, a < 10 → ∀ b, b < 10 → Nat.digitChar a = Nat.digitChar b → a = b := by
  decide

theorem map_digitChar_inj :
    ∀ l₁ l₂ : List Nat, (∀ x ∈ l₁, x < 10) → (∀ x ∈ l₂, x < 10) →
      l₁.map Nat.digitChar = l₂.map Nat.digitChar → l₁ = l₂ := by
  intro l₁
  induction l₁ with
  | nil =>
    intro l₂ _ _ h
    cases l₂ with
    | nil => rfl
    | cons b t => simp at h
  | cons a t iht =>
    intro l₂ h₁ h₂ h
    cases l₂ with
    | nil => simp at h
    | cons b t₂ =>
      simp only [List.map_cons, List.cons.injEq] at h
      have ha : a = b :=
        digitChar_inj_lt a (h₁ a (List.mem_cons_self a t)) b
          (h₂ b (List.mem_cons_self b t₂)) h.1
      have ht : t = t₂ :=
        iht t₂ (fun x hx => h₁ x (List.mem_cons_of_mem _ hx))
          (fun x hx => h₂ x (List.mem_cons_of_mem _ hx)) h.2
      rw [ha, ht]

theorem decChars_inj {a b : Nat} (ha : a ≠ 0) (hb : b ≠ 0)
    (h : decChars a = decChars b) : a = b := by
  rw [decChars_eq a ha, decChars_eq b hb] at h
  have h2 := List.reverse_injective h
  have h3 := map_digitChar_inj _ _
    (fun x hx => Nat.digits_lt_base (by norm_num) hx)
    (fun x hx => Nat.digits_lt_base (by norm_num) hx) h2
  have h4 := congrArg (Nat.ofDigits 10) h3
  rw [Nat.ofDigits_digits, Nat.ofDigits_digits] at h4
  exact_mod_cast h4

theorem decChars_head (n : Nat) (hn : n ≠ 0) :
    ∃ c t, decChars n = c :: t ∧ c ≠ '0' := by
  rw [decChars_eq n hn]
  have hne : Nat.digits 10 n ≠ [] := Nat.digits_ne_nil_iff_ne_zero.mpr hn
  rcases List.eq_nil_or_concat (Nat.digits 10 n) with h | ⟨L, d, h⟩
  · exact absurd h hne
  · have hd0 : d ≠ 0 := by
      have hlast := Nat.getLast_digit_ne_zero 10 hn
      have h1 : (Nat.digits 10 n).getLast? = some d := by
        rw [h, List.concat_eq_append]
        exact List.getLast?_concat L
      have h2 := List.getLast?_eq_getLast (Nat.digits 10 n)
        (Nat.digits_ne_nil_iff_ne_zero.mpr hn)
      rw [h1] at h2
      have h3 : d = (Nat.digits 10 n).getLast (Nat.digits_ne_nil_iff_ne_zero.mpr hn) :=
        Option.some_injective _ h2
      intro hd
      apply hlast
      rw [← h3]
      exact hd
    have hd10 : d < 10 := by
      refine @Nat.digits_lt_base 10 n d (by norm_num) ?_
      rw [h, List.concat_eq_append]
      simp
    refine ⟨Nat.digitChar d, (L.map Nat.digitChar).reverse, ?_, ?_⟩
    · rw [h]
      simp [List.concat_eq_append]
    · intro hc
      have : d = 0 := digitChar_inj_lt d hd10 0 (by norm_num) (by simpa using hc)
      exact hd0 this

theorem dropWhile_replicate_append (k : Nat) (c : Char) (t : List Char) (hc : c ≠ '0') :
    List.dropWhile (fun x => x == '0') (List.replicate k '0' ++ (c :: t)) = c :: t := by
  induction k with
  | zero => simp [List.dropWhile_cons, hc]
  | succ k ih => simpa [List.replicate_succ, List.dropWhile_cons] using ih

theorem pad4_inj {l₁ l₂ : List Char}
    (h₁ : ∃ c t, l₁ = c :: t ∧ c ≠ '0') (h₂ : ∃ c t, l₂ = c :: t ∧ c ≠ '0')
    (h : pad4 l₁ = pad4 l₂) : l₁ = l₂ := by
  obtain ⟨c₁, t₁, rfl, hc₁⟩ := h₁
  obtain ⟨c₂, t₂, rfl, hc₂⟩ := h₂
  have h5 := congrArg (List.dropWhile (fun x => x == '0')) h
  rwa [pad4, pad4, dropWhile_replicate_append _ _ _ hc₁,
    dropWhile_replicate_append _ _ _ hc₂] at h5

theorem formatRef_inj {year a b : Nat} (ha : 1 ≤ a) (hb : 1 ≤ b)
    (h : formatRef year a = formatRef year b) : a = b := by
  have h4 : pad4 (decChars a) = pad4 (decChars b) := by
    have hd := congrArg String.data h
    simp only [formatRef, natToString, padStart4, String.data_append, data_mk,
      List.append_assoc] at hd
    exact List.append_cancel_left (List.append_cancel_left (List.append_cancel_left hd))
  have h5 := pad4_inj (decChars_head a (by omega)) (decChars_head b (by omega)) h4
  exact decChars_inj (by omega) (by omega) h5

/-! ### The do-while loop returns the first free candidate -/

theorem contains_iff_mem (refs : List String) (s : String) :
    refs.contains s = true ↔ s ∈ refs :=
  List.elem_iff

theorem genRefLoop_succ (year : Nat) (refs : List String) (fuel counter : Nat) :
    genRefLoop year refs (fuel + 1) counter =
      if refs.contains (formatRef year counter) then genRefLoop year refs fuel (counter + 1)
      else formatRef year counter := rfl

theorem genRefLoop_spec (year : Nat) (refs : List String) :
    ∀ fuel c, (∃ k, c ≤ k ∧ k ≤ c + fuel ∧ formatRef year k ∉ refs) →
      ∃ k, c ≤ k ∧ genRefLoop year refs fuel c = formatRef year k ∧
        formatRef year k ∉ refs ∧ ∀ j, c ≤ j → j < k → formatRef year j ∈ refs := by
  intro fuel
  induction fuel with
  | zero =>
    rintro c ⟨k, h1, h2, h3⟩
    have hk : k = c := by omega
    rw [hk] at h3
    exact ⟨c, le_rfl, rfl, h3,
      fun j hj1 hj2 => absurd (Nat.lt_of_le_of_lt hj1 hj2) (Nat.lt_irrefl c)⟩
  | succ fuel ih =>
    rintro c ⟨k, h1, h2, h3⟩
    by_cases hmem : formatRef year c ∈ refs
    · have hcont : refs.contains (formatRef year c) = true :=
        (contains_iff_mem refs _).mpr hmem
      have hstep : genRefLoop year refs (fuel + 1) c = genRefLoop year refs fuel (c + 1) := by
        rw [genRefLoop_succ, hcont]
        simp
      have hkc : k ≠ c := fun he => h3 (he ▸ hmem)
      obtain ⟨k', hk1, hk2, hk3, hk4⟩ :=
        ih (c + 1) ⟨k, by omega, by omega, h3⟩
      refine ⟨k', by omega, by rw [hstep]; exact hk2, hk3, ?_⟩
      intro j hj1 hj2
      rcases Nat.eq_or_lt_of_le hj1 with he | hlt
      · exact he ▸ hmem
      · exact hk4 j hlt hj2
    · have hcont : refs.contains (formatRef year c) = false := by
        rw [← Bool.not_eq_true]
        intro hc
        exact hmem ((contains_iff_mem refs _).mp hc)
      have hstep : genRefLoop year refs (fuel + 1) c = formatRef year c := by
        rw [genRefLoop_succ, hcont]
        simp
      exact ⟨c, le_rfl, hstep, hmem,
        fun j hj1 hj2 => absurd (Nat.lt_of_le_of_lt hj1 hj2) (Nat.lt_irrefl c)⟩

/-- Pigeonhole: the candidates for counters 1 through length + 1 are pairwise
distinct strings, so a list of references cannot contain all of them. -/
theorem exists_free_index (year : Nat) (refs : List String) :
    ∃ k, 1 ≤ k ∧ k ≤ refs.length + 1 ∧ formatRef year k ∉ refs := by
  by_contra hcon
  push_neg at hcon
  have hinj : Function.Injective (fun i : Nat => formatRef year (i + 1)) := by
    intro i j hij
    have := formatRef_inj (by omega) (by omega) hij
    omega
  have hnodup : ((List.range (refs.length + 1)).map
      (fun i => formatRef year (i + 1))).Nodup :=
    (List.nodup_range _).map hinj
  have hsub : ((List.range (refs.length + 1)).map
      (fun i => formatRef year (i + 1))) ⊆ refs := by
    intro x hx
    obtain ⟨i, hi, rfl⟩ := List.mem_map.mp hx
    have hi2 : i < refs.length + 1 := List.mem_range.mp hi
    exact hcon (i + 1) (by omega) (by omega)
  have hlen := (hnodup.subperm hsub).length_le
  rw [List.length_map, List.length_range] at hlen
  omega

/-- Characterization of the allocator: `generateReferenceNumber` returns the
candidate for the smallest counter, at least 1, whose candidate is not among
the existing references. -/
theorem genRef_spec (year : Nat) (refs : List String) :
    ∃ k, 1 ≤ k ∧ generateReferenceNumber year refs = formatRef year k ∧
      formatRef year k ∉ refs ∧ ∀ j, 1 ≤ j → j < k → formatRef year j ∈ refs := by
  obtain ⟨k, h1, h2, h3⟩ := exists_free_index year refs
  exact genRefLoop_spec year refs (refs.length + 1) 1 ⟨k, h1, by omega, h3⟩

/-- Uniqueness direction of `genRef_spec`: if `m` is a free counter and every
smaller positive counter is used, the allocator returns exactly candidate `m`. -/
theorem genRef_eq_of (year : Nat) (refs : List String) (m : Nat) (hm : 1 ≤ m)
    (hfree : formatRef year m ∉ refs)
    (hused : ∀ j, 1 ≤ j → j < m → formatRef year j ∈ refs) :
    generateReferenceNumber year refs = formatRef year m := by
  obtain ⟨k, h1, h2, h3, h4⟩ := genRef_spec year refs
  have hkm : k = m := by
    rcases Nat.lt_trichotomy k m with h | h | h
    · exact absurd (hused k h1 h) h3
    · exact h
    · exact absurd (h4 m hm h) hfree
  rw [h2, hkm]

/-! ### Concrete shapes of formatted references -/

theorem formatRef_one (year : Nat) :
    formatRef year 1 = "GT-" ++ natToString year ++ "-0001" := by
  apply String.ext
  have h : padStart4 (natToString 1) = "0001" := by decide
  simp [formatRef, h, String.data_append, List.append_assoc]

theorem formatRef_10000 (year : Nat) :
    formatRef year 10000 = "GT-" ++ natToString year ++ "-10000" := by
  apply String.ext
  have h : padStart4 (natToString 10000) = "10000" := by decide
  simp [formatRef, h, String.data_append, List.append_assoc]

theorem padStart4_length (k : Nat) (h1 : 1 ≤ k) (h2 : k ≤ 9999) :
    (padStart4 (natToString k)).length = 4 := by
  have hlog : Nat.log 10 k < 4 :=
    Nat.log_lt_of_lt_pow (by omega) (lt_of_le_of_lt h2 (by norm_num))
  have hlen : (decChars k).length ≤ 4 := by
    rw [decChars_length k (by omega)]
    omega
  simp only [padStart4, natToString, String.length, data_mk, pad4,
    List.length_append, List.length_replicate]
  omega

/-- References GT-year-0001 through GT-year-n: the used set after the first
`n` allocations of a year. -/
def usedRefsUpTo (year n : Nat) : List String :=
  (List.range n).map (fun i => formatRef year (i + 1))

theorem genRef_on_used (year n : Nat) :
    generateReferenceNumber year (usedRefsUpTo year n) = formatRef year (n + 1) := by
  apply genRef_eq_of year _ (n + 1) (by omega)
  · intro hmem
    obtain ⟨i, hi, he⟩ := List.mem_map.mp hmem
    have hi2 : i < n := List.mem_range.mp hi
    have := formatRef_inj (by omega) (by omega) he
    omega
  · intro j hj1 hj2
    refine List.mem_map.mpr ⟨j - 1, List.mem_range.mpr (by omega), ?_⟩
    rw [Nat.sub_add_cancel hj1]

/-- Claim C1: for every list of used references, the allocator returns the
candidate GT-year-sequence with the smallest sequence number at least 1 whose
candidate string is not among the used references; in particular the returned
value is never among the used references. -/
theorem allocate_returns_smallest_free (year : Nat) (usedReferences : List String) :
    ∃ k, 1 ≤ k ∧
      generateReferenceNumber year usedReferences = formatRef year k ∧
      formatRef year k ∉ usedReferences ∧
      ∀ j, 1 ≤ j → j < k → formatRef year j ∈ usedReferences :=
  genRef_spec year usedReferences

/-- Claim C6: in every year, the k-th of the first 9999 allocations returns
the candidate for sequence k whose padded sequence part is exactly 4
characters long, and the 10000th allocation, against the used set holding
GT-year-0001 through GT-year-9999, returns GT-year-10000 with a 5-digit
sequence part, neither wrapping nor truncating nor failing. -/
theorem first_allocations_padding (year : Nat) :
    (∀ k, 1 ≤ k → k ≤ 9999 →
      generateReferenceNumber year (usedRefsUpTo year (k - 1)) = formatRef year k ∧
        (padStart4 (natToString k)).length = 4) ∧
      generateReferenceNumber year (usedRefsUpTo year 9999) =
        "GT-" ++ natToString year ++ "-10000" := by
  refine ⟨fun k h1 h2 => ⟨?_, padStart4_length k h1 h2⟩, ?_⟩
  · have h := genRef_on_used year (k - 1)
    rwa [Nat.sub_add_cancel h1] at h
  · rw [genRef_on_used year 9999]
    exact formatRef_10000 year

/-! ### The worker quote endpoints (src/worker/email.js)

JSON bodies are embedded as typed records: the numbers carried by items are
embedded as rationals (JS numbers), absent fields as Option. JSON.stringify
and JSON.parse at the storage boundary form an injective encoding and are
abstracted as the identity, so rows hold the structured customer and items.
A request body may carry extra fields; the handler destructures only items,
customer and comments, so only those and an ignored currency are modelled. -/

structure Item where
  name : String
  price : ℚ
  quantity : ℚ
deriving DecidableEq

structure Customer where
  firstName : String
  lastName : String
  email : String
  phone : Option String := none
  company : Option String := none
deriving DecidableEq

structure QuoteRequest where
  items : Option (List Item)
  customer : Option Customer
  comments : Option String := none
  currency : Option String := none
deriving DecidableEq

/-- Row of the worker's quotes table, as bound by the INSERT at
src/worker/email.js lines 417-429 (created_at is filled by the column
default at the database boundary and is not bound there). -/
structure QuoteRow where
  id : String
  reference_number : String
  customer_data : Customer
  items : List Item
  total_amount : ℚ
  currency : String
  status : String
  comments : Option String
deriving DecidableEq

/-- Response object built at src/worker/email.js lines 431-441. -/
structure WorkerQuote where
  id : String
  referenceNumber : String
  customer : Customer
  items : List Item
  totalAmount : ℚ
  currency : String
  status : String
  comments : Option String
  createdAt : String
deriving DecidableEq

inductive CreateResult where
  | badRequest (message : String)
  | created (store : List QuoteRow) (quote : WorkerQuote)
deriving DecidableEq

def CreateResult.isCreated : CreateResult → Bool
  | .created _ _ => true
  | .badRequest _ => false

/-- Embeds POST /api/quotes of src/worker/email.js lines 385-458: reject when
items is absent or empty, reject when customer is absent, then read existing
references from the store, total the items, allocate a reference, insert the
row and build the response quote. The generated UUID and the creation
timestamp are ambient inputs. Email dispatch afterwards is best-effort at an
external boundary and cannot change the result. -/
def handleCreateQuote (req : QuoteRequest) (store : List QuoteRow) (year : Nat)
    (quoteId createdAt : String) : CreateResult :=
  match req.items with
  | none => .badRequest "Quote must have at least one item"
  | some items =>
    if items.isEmpty then .badRequest "Quote must have at least one item"
    else
      match req.customer with
      | none => .badRequest "Customer information is required"
      | some customer =>
        let refNumbers := store.map (fun r => r.reference_number)
        let totalAmount := items.foldl (fun sum item => sum + item.price * item.quantity) 0
        let referenceNumber := generateReferenceNumber year refNumbers
        let row : QuoteRow :=
          { id := quoteId, reference_number := referenceNumber,
            customer_data := customer, items := items, total_amount := totalAmount,
            currency := "ZAR", status := "pending", comments := req.comments }
        let quote : WorkerQuote :=
          { id := quoteId, referenceNumber := referenceNumber, customer := customer,
            items := items, totalAmount := totalAmount, currency := "ZAR",
            status := "pending", comments := req.comments, createdAt := createdAt }
        .created (store ++ [row]) quote

/-- Embeds the reference-format test at src/worker/email.js line 473. The
regex literal there is written with doubled backslashes; inside a JS regex
literal a doubled backslash matches one literal backslash character, and the
letter d with a repetition count of 4 then matches four literal d
characters. The pattern therefore accepts exactly one 15-character string,
and no reference of the documented GT-YYYY-NNNN shape. -/
def refFormatOk (reference : String) : Bool :=
  reference == "GT-\\dddd-\\dddd"

inductive LookupResult where
  | badRequest (message : String)
  | notFound (message : String)
  | ok (quote : QuoteRow)
deriving DecidableEq

/-- Embeds GET /api/quotes/:reference of src/worker/email.js lines 468-515:
400 when the format test fails, then an exact-match lookup on
reference_number with 404 on no row and 200 with the row otherwise. -/
def handleGetQuoteByRef (reference : String) (store : List QuoteRow) : LookupResult :=
  if !(refFormatOk reference) then
    .badRequest "Invalid reference number format. Expected: GT-YYYY-NNNN"
  else
    match store.find? (fun r => r.reference_number == reference) with
    | none => .notFound "Quote not found"
    | some r => .ok r

inductive ListParamsResult where
  | badRequest (message : String)
  | ok (limit offset : Int)
deriving DecidableEq

/-- Embeds the limit/offset handling of GET /api/quotes (src/worker/email.js
lines 517-534). A query parameter is embedded after parseInt: some n when it
parses to the integer n, none when absent or not a number (NaN). The JS
defaulting expressions replace both NaN and 0 by the default, both being
falsy; the range check then rejects limits below 1 or above 100. -/
def parseListParams (limitParam offsetParam : Option Int) : ListParamsResult :=
  let limit : Int :=
    match limitParam with
    | none => 50
    | some n => if n = 0 then 50 else n
  let offset : Int :=
    match offsetParam with
    | none => 0
    | some n => n
  if limit < 1 ∨ limit > 100 then .badRequest "Limit must be between 1 and 100"
  else .ok limit offset

/-! ### The repository variants (src/backend/src/config/azure-database.ts)

`QuoteStorage` mirrors the TypeScript interface of the same name. The
customer_data and items columns hold serialized JSON text and stay opaque
strings here; created_at and expires_at are timezone-aware instants that the
relational store orders chronologically, embedded as instants on a discrete
timeline. -/

inductive QuoteStatus where
  | pending
  | approved
  | rejected
  | expired
deriving DecidableEq

structure QuoteStorage where
  id : String
  referenceNumber : String
  customerData : String
  items : String
  subtotal : ℚ
  total : ℚ
  currency : String
  status : QuoteStatus
  comments : Option String
  createdAt : Nat
  expiresAt : Nat
  lastModifiedAt : Option Nat
deriving DecidableEq

inductive PgError where
  | uniqueViolation
deriving DecidableEq

/-- Embeds createQuote of azure-database.ts lines 73-104 (durable branch): an
INSERT into the quotes table whose schema (createTables, lines 272-287)
declares id PRIMARY KEY and reference_number UNIQUE NOT NULL, so the insert
fails on a duplicate id or reference number and otherwise appends the row
and returns it as re-read. -/
def pgCreateQuote (table : List QuoteStorage) (q : QuoteStorage) :
    Except PgError (List QuoteStorage × QuoteStorage) :=
  if table.any (fun r => r.id == q.id || r.referenceNumber == q.referenceNumber) then
    .error .uniqueViolation
  else
    .ok (table ++ [q], q)

/-- Embeds createQuote's development fallback (azure-database.ts lines
105-109): push the quote onto devQuoteStorage and return it; no uniqueness
check of any kind is performed. -/
def devCreateQuote (store : List QuoteStorage) (q : QuoteStorage) :
    List QuoteStorage × QuoteStorage :=
  (store ++ [q], q)

/-- Ordering imposed by ORDER BY created_at DESC. -/
def createdDesc (a b : QuoteStorage) : Prop :=
  b.createdAt ≤ a.createdAt

instance : DecidableRel createdDesc :=
  fun a b => Nat.decLe b.createdAt a.createdAt

instance : IsTotal QuoteStorage createdDesc :=
  ⟨fun a b => Nat.le_total b.createdAt a.createdAt⟩

instance : IsTrans QuoteStorage createdDesc :=
  ⟨fun _ _ _ h1 h2 => Nat.le_trans h2 h1⟩

/-- Embeds getAllQuotes of azure-database.ts lines 185-200 (durable branch):
SELECT * FROM quotes ORDER BY created_at DESC LIMIT limit OFFSET offset,
with OFFSET skipping after the sort and LIMIT taking after the skip. -/
def pgGetAllQuotes (table : List QuoteStorage) (limit offset : Nat) : List QuoteStorage :=
  ((List.insertionSort createdDesc table).drop offset).take limit

/-- Embeds getAllQuotes' development fallback (line 198):
devQuoteStorage.slice(offset, offset + limit), the insertion-ordered store
sliced without any sorting. -/
def devGetAllQuotes (store : List QuoteStorage) (limit offset : Nat) : List QuoteStorage :=
  (store.drop offset).take limit

/-! ### Demonstration records: three quotes created in order -/

def demoQ1 : QuoteStorage :=
  { id := "id-1", referenceNumber := "GT-2025-0001", customerData := "c1",
    items := "i1", subtotal := 350, total := 350, currency := "ZAR",
    status := .pending, comments := none, createdAt := 1, expiresAt := 31,
    lastModifiedAt := none }

def demoQ2 : QuoteStorage :=
  { id := "id-2", referenceNumber := "GT-2025-0002", customerData := "c2",
    items := "i2", subtotal := 650, total := 650, currency := "ZAR",
    status := .pending, comments := none, createdAt := 2, expiresAt := 32,
    lastModifiedAt := none }

def demoQ3 : QuoteStorage :=
  { id := "id-3", referenceNumber := "GT-2025-0003", customerData := "c3",
    items := "i3", subtotal := 1200, total := 1200, currency := "ZAR",
    status := .pending, comments := none, createdAt := 3, expiresAt := 33,
    lastModifiedAt := none }

/-- Ephemeral store after creating the three demo quotes in order. -/
def demoStore : List QuoteStorage :=
  (devCreateQuote (devCreateQuote (devCreateQuote [] demoQ1).1 demoQ2).1 demoQ3).1

theorem pgGetAllQuotes_sorted (table : List QuoteStorage) (limit offset : Nat) :
    List.Sorted createdDesc (pgGetAllQuotes table limit offset) := by
  have hs : List.Sorted createdDesc (List.insertionSort createdDesc table) :=
    List.sorted_insertionSort createdDesc table
  have h1 : List.Sublist (pgGetAllQuotes table limit offset)
      (List.insertionSort createdDesc table) :=
    (List.take_sublist _ _).trans (List.drop_sublist _ _)
  exact List.Pairwise.sublist h1 hs

/-- Claim C2 (amended): the durable variant's create fails exactly when a
stored quote already has the same id or the same referenceNumber, enforced
by the table's PRIMARY KEY and UNIQUE constraints; the ephemeral in-memory
variant performs no uniqueness check at all and appends unconditionally. -/
theorem repository_create_uniqueness :
    (∀ (table : List QuoteStorage) (q : QuoteStorage),
      pgCreateQuote table q = .error .uniqueViolation ↔
        ∃ r ∈ table, r.id = q.id ∨ r.referenceNumber = q.referenceNumber) ∧
    ∀ (store : List QuoteStorage) (q : QuoteStorage),
      devCreateQuote store q = (store ++ [q], q) := by
  refine ⟨fun table q => ?_, fun store q => rfl⟩
  have hcond : (table.any
      (fun r => r.id == q.id || r.referenceNumber == q.referenceNumber) = true) ↔
      ∃ r ∈ table, r.id = q.id ∨ r.referenceNumber = q.referenceNumber := by
    simp [List.any_eq_true]
  constructor
  · intro h
    rw [← hcond]
    by_contra hb
    have hok : pgCreateQuote table q = .ok (table ++ [q], q) := by
      rw [pgCreateQuote, if_neg]
      simpa using hb
    rw [hok] at h
    exact Except.noConfusion h
  · intro hex
    rw [pgCreateQuote, if_pos (hcond.mpr hex)]

/-- Claim C2 counterexample: in the ephemeral variant, creating the very same
quote twice succeeds; the second create returns the quote normally and the
store afterwards holds two records with the same id and referenceNumber,
instead of failing with a conflict. -/
theorem ephemeral_duplicate_create_accepted :
    devCreateQuote (devCreateQuote [] demoQ1).1 demoQ1 = ([demoQ1, demoQ1], demoQ1) := rfl

/-- Claim C5 (amended): the durable listing returns quotes ordered by
createdAt descending, offset and limit applied after the ordering — after
the three demo creates, list(1, 0) returns exactly the most recent quote —
while the ephemeral fallback slices the store in insertion order, returning
the quotes oldest first. -/
theorem listing_order :
    (∀ (table : List QuoteStorage) (limit offset : Nat),
      List.Sorted createdDesc (pgGetAllQuotes table limit offset)) ∧
    pgGetAllQuotes demoStore 1 0 = [demoQ3] ∧
    devGetAllQuotes demoStore 3 0 = [demoQ1, demoQ2, demoQ3] := by
  refine ⟨pgGetAllQuotes_sorted, ?_, ?_⟩
  · decide
  · decide

/-- Claim C5 counterexample: on the ephemeral variant, after creating three
quotes, list(limit 1, offset 0) returns the oldest quote, not the most
recently created one. -/
theorem ephemeral_listing_not_sorted :
    devGetAllQuotes demoStore 1 0 = [demoQ1] ∧ demoQ1 ≠ demoQ3 := by
  exact ⟨rfl, by decide⟩

/-! ### Concrete requests -/

def scenarioAItems : List Item :=
  [{ name := "Course", price := 350, quantity := 2 }]

def scenarioACustomer : Customer :=
  { firstName := "Jo", lastName := "Doe", email := "jo@example.com" }

def scenarioAReq : QuoteRequest :=
  { items := some scenarioAItems, customer := some scenarioACustomer }

def badItemsReq : QuoteRequest :=
  { items := some [{ name := "X", price := -5, quantity := 0 }],
    customer := some scenarioACustomer }

def missingCustomerReq : QuoteRequest :=
  { items := some scenarioAItems, customer := none }

def badEmailReq : QuoteRequest :=
  { items := some scenarioAItems,
    customer := some { firstName := "Jo", lastName := "Doe", email := "not-an-email" } }

def requestWithUSD : QuoteRequest :=
  { items := some scenarioAItems, customer := some scenarioACustomer,
    comments := none, currency := some "USD" }

/-- Modelled from the spec: the container flavor's submission workflow (the
route code that fills the subtotal and total fields of a QuoteStorage
record) is not among the repository files here; only its storage interface
is. Per the spec, total is the sum of price times quantity over the items
and subtotal is the same sum. -/
def azureSubmitTotals (items : List Item) : ℚ × ℚ :=
  (items.foldl (fun sum item => sum + item.price * item.quantity) 0,
   items.foldl (fun sum item => sum + item.price * item.quantity) 0)

theorem genRef_empty (year : Nat) :
    generateReferenceNumber year [] = "GT-" ++ natToString year ++ "-0001" := by
  have h := genRef_on_used year 0
  simp only [usedRefsUpTo, List.range_zero, List.map_nil, Nat.zero_add] at h
  rw [h]
  exact formatRef_one year

/-! ### Claims about the worker endpoints -/

/-- Claim C3 (code defect): the reference-lookup endpoint rejects every
well-formed reference as malformed. The format regex is written with
doubled backslashes, so it accepts only a literal string containing actual
backslash characters; GT-2025-0001 — a reference the allocator itself
produces — and GT-2025-10000, a five-digit-sequence reference, are both
answered 400 as malformed. -/
theorem reference_lookup_rejects_wellformed :
    refFormatOk "GT-2025-0001" = false ∧
    refFormatOk "GT-2025-10000" = false ∧
    refFormatOk (generateReferenceNumber 2025 []) = false ∧
    refFormatOk "GT-\\dddd-\\dddd" = true ∧
    handleGetQuoteByRef "GT-2025-0001" [] =
      .badRequest "Invalid reference number format. Expected: GT-YYYY-NNNN" := by
  refine ⟨rfl, rfl, ?_, rfl, rfl⟩
  decide

/-- Claim C4 (amended): the items validation rejects exactly a missing or
empty items array, with the message of that 400 response; there is no
per-item check, so items with negative prices or zero, negative or
fractional quantities pass validation. -/
theorem items_validation (req : QuoteRequest) (store : List QuoteRow) (year : Nat)
    (quoteId createdAt : String) :
    handleCreateQuote req store year quoteId createdAt =
        .badRequest "Quote must have at least one item" ↔
      (req.items = none ∨ req.items = some []) := by
  cases hi : req.items with
  | none => simp [handleCreateQuote, hi]
  | some items =>
    cases items with
    | nil => simp [handleCreateQuote, hi]
    | cons a t =>
      cases hc : req.customer with
      | none => simp [handleCreateQuote, hi, hc]
      | some c => simp [handleCreateQuote, hi, hc]

/-- Claim C4 counterexample: a request whose only item has a negative price
and a zero quantity is accepted by the endpoint, not rejected by the items
validation. -/
theorem negative_item_accepted :
    (handleCreateQuote badItemsReq [] 2025 "q-1" "t0").isCreated = true := rfl

/-- Claim C7 (amended): with valid items, the customer validation rejects
exactly a missing customer, with the message of that 400 response; there is
no email-shape validation, so any email string passes. -/
theorem customer_validation (req : QuoteRequest) (store : List QuoteRow) (year : Nat)
    (quoteId createdAt : String) (l : List Item) (hi : req.items = some l) (hne : l ≠ []) :
    handleCreateQuote req store year quoteId createdAt =
        .badRequest "Customer information is required" ↔
      req.customer = none := by
  cases l with
  | nil => exact absurd rfl hne
  | cons a t =>
    cases hc : req.customer with
    | none => simp [handleCreateQuote, hi, hc]
    | some c => simp [handleCreateQuote, hi, hc]

/-- Witness for claim C7 at a concrete request without a customer. -/
theorem customer_validation_check :
    handleCreateQuote missingCustomerReq [] 2025 "q-1" "t0" =
      .badRequest "Customer information is required" :=
  (customer_validation missingCustomerReq [] 2025 "q-1" "t0" scenarioAItems rfl
    (by decide)).mpr rfl

/-- Claim C7 counterexample: a request whose customer email has no
local-at-domain shape is accepted by the endpoint, not rejected. -/
theorem invalid_email_accepted :
    (handleCreateQuote badEmailReq [] 2025 "q-1" "t0").isCreated = true := rfl

/-- Claim C8 (amended): an integer limit other than 0 lying outside the
range 1 to 100 is rejected with the 400 message; a limit of 0 is falsy in
JS and is silently replaced by the default 50 rather than rejected; a
missing limit defaults to 50 and a missing offset to 0. -/
theorem listing_params (offsetParam : Option Int) :
    (∀ n : Int, n ≠ 0 → (n < 1 ∨ n > 100) →
      parseListParams (some n) offsetParam =
        .badRequest "Limit must be between 1 and 100") ∧
    parseListParams (some 0) offsetParam = parseListParams none offsetParam ∧
    parseListParams none none = .ok 50 0 := by
  refine ⟨fun n hn hrange => ?_, rfl, rfl⟩
  simp [parseListParams, hn, hrange]

/-- Claim C8 counterexample: a limit of 0 is not rejected; the listing
succeeds with the default limit 50 in its place. -/
theorem limit_zero_not_rejected :
    parseListParams (some 0) none = .ok 50 0 := rfl

/-- Claim C9: on an empty store, submitting scenario A succeeds with total
700 (the sum over items of price times quantity), status pending, and a
reference number GT-year-0001; the container flavor's submission workflow
computes subtotal and total as the same sum, 700, from the same items. -/
theorem scenarioA_submission (year : Nat) (quoteId createdAt : String) :
    (∃ st q, handleCreateQuote scenarioAReq [] year quoteId createdAt = .created st q ∧
      q.totalAmount = 700 ∧ q.status = "pending" ∧
      q.referenceNumber = "GT-" ++ natToString year ++ "-0001") ∧
    azureSubmitTotals scenarioAItems = (700, 700) := by
  constructor
  · refine ⟨_, _, rfl, ?_, rfl, ?_⟩
    · have hval :
          scenarioAItems.foldl (fun sum item => sum + item.price * item.quantity) 0 =
            (700 : ℚ) := by
        norm_num [scenarioAItems]
      exact hval
    · exact genRef_empty year
  · norm_num [azureSubmitTotals, scenarioAItems]

/-- Claim C10: whenever the worker's quote-creation endpoint succeeds, the
response quote and the row appended to the store both carry currency ZAR, a
constant the handler hardcodes no matter what the request carried. -/
theorem created_currency_zar (req : QuoteRequest) (store : List QuoteRow) (year : Nat)
    (quoteId createdAt : String) (st : List QuoteRow) (q : WorkerQuote)
    (h : handleCreateQuote req store year quoteId createdAt = .created st q) :
    q.currency = "ZAR" ∧ ∃ row, st = store ++ [row] ∧ row.currency = "ZAR" := by
  unfold handleCreateQuote at h
  split at h
  · exact CreateResult.noConfusion h
  · split at h
    · exact CreateResult.noConfusion h
    · split at h
      · exact CreateResult.noConfusion h
      · injection h with h1 h2
        subst h1
        subst h2
        exact ⟨rfl, _, rfl, rfl⟩

def usdRow : QuoteRow :=
  { id := "q-1", reference_number := "GT-2025-0001", customer_data := scenarioACustomer,
    items := scenarioAItems, total_amount := 700, currency := "ZAR",
    status := "pending", comments := none }

def usdQuote : WorkerQuote :=
  { id := "q-1", referenceNumber := "GT-2025-0001", customer := scenarioACustomer,
    items := scenarioAItems, totalAmount := 700, currency := "ZAR",
    status := "pending", comments := none, createdAt := "t0" }

/-- Witness for claim C10 at a concrete request that itself carries currency
USD: the created quote and the stored row still carry ZAR. -/
theorem created_currency_zar_check :
    usdQuote.currency = "ZAR" ∧
      ∃ row, [] ++ [usdRow] = ([] : List QuoteRow) ++ [row] ∧ row.currency = "ZAR" :=
  created_currency_zar requestWithUSD [] 2025 "q-1" "t0" ([] ++ [usdRow]) usdQuote
    (by
      have h1 : generateReferenceNumber 2025 [] = "GT-2025-0001" := by
        rw [genRef_empty 2025]
        decide
      norm_num [handleCreateQuote, requestWithUSD, scenarioAItems, scenarioACustomer,
        usdRow, usdQuote, h1])

end GuerillaQuotes
